import Mathlib

/-!
Shallow embedding of `crates/chain/src/sqlite.rs` (bdk): the schema-migration
protocol, the changeset `Persister`, the `PersistParams` pair combinator, and
the typed column codecs.  The SQLite store is modelled as explicit state: the
reserved schema registry table (`bdk_schemas`) is an association list from
schema name to version, and every statement executed through the transaction is
recorded in an event log, so that ordering claims ("first persist the version,
then run the script") are visible in the model.
-/

namespace BdkSqlite

/-- An observable event performed by `migrate_schema` inside the ambient
transaction: either writing a row of the schema registry
(`REPLACE INTO bdk_schemas`), or executing one user-supplied script
statement (`db_tx.execute(statement, ())`). -/
inductive MEvent where
  | setVersion (name : String) (version : Nat)
  | execStmt (stmt : String)
  deriving Repr, DecidableEq

/-- The database state seen by the migration code: the rows of the reserved
`bdk_schemas` registry table (name is a primary key, so at most one row per
name), plus the ordered log of events executed through the transaction.
`init_schemas_table` runs `CREATE TABLE IF NOT EXISTS` for the registry, which
is idempotent; the model keeps the registry structurally present. -/
structure MigrateDb where
  registry : List (String × Nat)
  log : List MEvent
  deriving Repr, DecidableEq

/-- `schema_version` (source line 128): `SELECT version FROM bdk_schemas WHERE
name=:name`, returning `None` when no row exists. -/
def schema_version (reg : List (String × Nat)) (schema_name : String) : Option Nat :=
  (reg.find? (fun p => p.1 == schema_name)).map (fun p => p.2)

/-- The row update done by `REPLACE INTO bdk_schemas(name, version)`: upsert
keyed on the primary key `name`. -/
def reg_set (reg : List (String × Nat)) (schema_name : String) (version : Nat) :
    List (String × Nat) :=
  if reg.any (fun p => p.1 == schema_name) then
    reg.map (fun p => if p.1 == schema_name then (p.1, version) else p)
  else
    reg ++ [(schema_name, version)]

/-- `set_schema_version` (source line 141): upserts the registry row and is an
observable write, so it is also recorded in the event log. -/
def set_schema_version (db : MigrateDb) (schema_name : String) (version : Nat) :
    MigrateDb :=
  { registry := reg_set db.registry schema_name version
    log := db.log ++ [MEvent.setVersion schema_name version] }

/-- The inner loop of `migrate_schema`:
`for statement in script { db_tx.execute(statement, ())?; }`. -/
def exec_stmts (db : MigrateDb) (script : List String) : MigrateDb :=
  script.foldl (fun d stmt => { d with log := d.log ++ [MEvent.execStmt stmt] }) db

/-- The outer loop of `migrate_schema`:
`for (version, &script) in scripts_to_exec { set_schema_version(..)?; for .. }`
over an already enumerated-and-skipped list of `(version, script)` pairs. -/
def run_versioned (db : MigrateDb) (schema_name : String)
    (scripts_to_exec : List (Nat × List String)) : MigrateDb :=
  scripts_to_exec.foldl
    (fun d p => exec_stmts (set_schema_version d schema_name p.1) p.2) db

/-- `exec_from = current_version.map_or(0_usize, |v| v as usize + 1)`
(source line 165). -/
def exec_from (current_version : Option Nat) : Nat :=
  match current_version with
  | none => 0
  | some v => v + 1

/-- `migrate_schema` (source lines 158-174).  `init_schemas_table` is the
idempotent registry creation (a no-op on the modelled state); then the current
version is read, the first unapplied index computed, and
`versioned_scripts.iter().enumerate().skip(exec_from)` is iterated, setting the
version row before executing each version's statements. -/
def migrate_schema (db : MigrateDb) (schema_name : String)
    (versioned_scripts : List (List String)) : MigrateDb :=
  let current_version := schema_version db.registry schema_name
  let ef := exec_from current_version
  let scripts_to_exec := (List.enum versioned_scripts).drop ef
  run_versioned db schema_name scripts_to_exec

/-- The trace of events `migrate_schema` appends for an enumerated script list:
for each pair, first the version write, then the statements in order. -/
def migrate_trace (schema_name : String) (l : List (Nat × List String)) :
    List MEvent :=
  l.flatMap (fun p => MEvent.setVersion schema_name p.1 :: p.2.map MEvent.execStmt)

example :
    migrate_schema ⟨[], []⟩ "wallet" [["a", "b"], ["c"]] =
      ⟨[("wallet", 1)],
        [MEvent.setVersion "wallet" 0, MEvent.execStmt "a", MEvent.execStmt "b",
          MEvent.setVersion "wallet" 1, MEvent.execStmt "c"]⟩ := by
  decide

example :
    migrate_schema ⟨[("wallet", 0)], []⟩ "wallet" [["a", "b"], ["c"]] =
      ⟨[("wallet", 1)], [MEvent.setVersion "wallet" 1, MEvent.execStmt "c"]⟩ := by
  decide

lemma exec_stmts_eq (db : MigrateDb) (script : List String) :
    exec_stmts db script = { db with log := db.log ++ script.map MEvent.execStmt } := by
  induction script generalizing db with
  | nil => simp [exec_stmts]
  | cons s t ih =>
    show exec_stmts { db with log := db.log ++ [MEvent.execStmt s] } t = _
    rw [ih]
    simp

lemma run_versioned_eq (db : MigrateDb) (n : String) (l : List (Nat × List String)) :
    run_versioned db n l =
      { registry := l.foldl (fun r p => reg_set r n p.1) db.registry
        log := db.log ++ migrate_trace n l } := by
  induction l generalizing db with
  | nil => simp [run_versioned, migrate_trace]
  | cons p t ih =>
    show run_versioned (exec_stmts (set_schema_version db n p.1) p.2) n t = _
    rw [exec_stmts_eq, ih]
    simp [set_schema_version, migrate_trace]

lemma schema_version_map_update (t : List (String × Nat)) (n : String) (v : Nat)
    (h : t.any (fun p => p.1 == n) = true) :
    schema_version (t.map (fun p => if p.1 == n then (p.1, v) else p)) n = some v := by
  induction t with
  | nil => simp at h
  | cons p t ih =>
    by_cases hp : p.1 == n
    · simp [schema_version, List.find?, hp]
    · simp only [List.any_cons, hp, Bool.false_or] at h
      have ht := ih h
      rw [schema_version] at ht ⊢
      simp only [List.map_cons, List.find?, hp, Bool.false_eq_true, if_false]
      exact ht

lemma schema_version_append_new (t : List (String × Nat)) (n : String) (v : Nat)
    (h : t.any (fun p => p.1 == n) = false) :
    schema_version (t ++ [(n, v)]) n = some v := by
  induction t with
  | nil => simp [schema_version, List.find?]
  | cons p t ih =>
    simp only [List.any_cons, Bool.or_eq_false_iff] at h
    rw [schema_version]
    simp only [List.cons_append, List.find?, h.1]
    exact ih h.2

lemma schema_version_reg_set (reg : List (String × Nat)) (n : String) (v : Nat) :
    schema_version (reg_set reg n v) n = some v := by
  rw [reg_set]
  by_cases h : reg.any (fun p => p.1 == n)
  · simp only [h, if_true]
    exact schema_version_map_update reg n v h
  · simp only [eq_false_of_ne_true h, if_false]
    exact schema_version_append_new reg n v (eq_false_of_ne_true h)

lemma enumFrom_drop_eq (l : List (List String)) (i k : Nat) :
    (l.enumFrom i).drop k = (l.drop k).enumFrom (i + k) := by
  induction l generalizing i k with
  | nil => simp
  | cons a t ih =>
    cases k with
    | zero => simp
    | succ k =>
      show (t.enumFrom (i + 1)).drop k = _
      rw [ih]
      congr 1
      omega

lemma schema_version_foldl_enumFrom (l : List (List String)) (k : Nat)
    (r : List (String × Nat)) (n : String) (h : l ≠ []) :
    schema_version
        ((l.enumFrom k).foldl (fun r (p : Nat × List String) => reg_set r n p.1) r) n =
      some (k + l.length - 1) := by
  induction l generalizing k r with
  | nil => exact absurd rfl h
  | cons a t ih =>
    cases t with
    | nil =>
      show schema_version (reg_set r n k) n = some (k + 1 - 1)
      rw [schema_version_reg_set, Nat.add_sub_cancel]
    | cons b u =>
      show schema_version
          (((b :: u).enumFrom (k + 1)).foldl (fun r p => reg_set r n p.1)
            (reg_set r n k)) n = _
      rw [ih (k + 1) (reg_set r n k) (by simp)]
      congr 1
      simp only [List.length_cons]
      omega

/-- Shared consequence: when there are unapplied versions, the registry row for
`schema_name` after `migrate_schema` holds the last index of the script list. -/
lemma migrate_schema_final_version (db : MigrateDb) (n : String)
    (s : List (List String))
    (h : exec_from (schema_version db.registry n) < s.length) :
    schema_version (migrate_schema db n s).registry n = some (s.length - 1) := by
  rw [migrate_schema]
  rw [show List.enum s = s.enumFrom 0 from rfl]
  rw [enumFrom_drop_eq, run_versioned_eq]
  simp only
  rw [schema_version_foldl_enumFrom _ _ _ _ (by
    intro hnil
    have := List.drop_eq_nil_iff.mp hnil
    omega)]
  congr 1
  rw [List.length_drop]
  omega

/-- Shared consequence: when every version is already applied (or the script
list is empty), `migrate_schema` leaves the state untouched. -/
lemma migrate_schema_noop (db : MigrateDb) (n : String) (s : List (List String))
    (h : s.length ≤ exec_from (schema_version db.registry n)) :
    migrate_schema db n s = db := by
  rw [migrate_schema]
  rw [List.drop_eq_nil_of_le (by rw [List.enum_length]; exact h)]
  rfl

/-- C1: `migrate_schema` computes the first unapplied version index as
(current stored version + 1) when a registry row is present for the schema
name and 0 otherwise, and then, for each version index from that point to the
end of the script list in ascending order, first records the new version
number for the schema name and then executes every statement of that version's
batch in order; an empty script list, or a stored version at or past the last
index, results in no scripts executing. -/
theorem migrate_schema_trace_spec (db : MigrateDb) (n : String)
    (s : List (List String)) :
    ((migrate_schema db n s).log =
        db.log ++
          migrate_trace n
            ((List.enum s).drop (exec_from (schema_version db.registry n)))) ∧
    (s.length ≤ exec_from (schema_version db.registry n) →
        (migrate_schema db n s).log = db.log) := by
  constructor
  · rw [migrate_schema, run_versioned_eq]
  · intro h
    rw [migrate_schema_noop db n s h]

/-- Witness for C1: with stored version 5 and a one-version script list,
nothing is executed. -/
theorem migrate_schema_trace_spec_witness :
    (migrate_schema ⟨[("wallet", 5)], []⟩ "wallet" [["a"]]).log =
      ([] : List MEvent) :=
  (migrate_schema_trace_spec ⟨[("wallet", 5)], []⟩ "wallet" [["a"]]).2 (by decide)

/-- C5: running `migrate_schema` twice in succession with the same schema name
and the same script set is idempotent: the second run executes zero script
statements, writes no version row, and leaves the registry (indeed the whole
state) unchanged. -/
theorem migrate_schema_idempotent (db : MigrateDb) (n : String)
    (s : List (List String)) :
    migrate_schema (migrate_schema db n s) n s = migrate_schema db n s := by
  by_cases h : exec_from (schema_version db.registry n) < s.length
  · have hv := migrate_schema_final_version db n s h
    apply migrate_schema_noop
    rw [hv]
    simp only [exec_from]
    omega
  · have hle : s.length ≤ exec_from (schema_version db.registry n) := by omega
    rw [migrate_schema_noop db n s hle, migrate_schema_noop db n s hle]

/-- C9: the registry version recorded for a schema name never decreases across
a successful `migrate_schema` call: if no batch index past the current version
exists the registry is left exactly as it was (including an absent row), and
otherwise the stored version after the call equals `len - 1`, which is strictly
greater than any previously stored version. -/
theorem migrate_schema_version_monotone (db : MigrateDb) (n : String)
    (s : List (List String)) :
    (s.length ≤ exec_from (schema_version db.registry n) →
        (migrate_schema db n s).registry = db.registry) ∧
    (exec_from (schema_version db.registry n) < s.length →
        schema_version (migrate_schema db n s).registry n = some (s.length - 1) ∧
        ∀ v, schema_version db.registry n = some v → v < s.length - 1) := by
  constructor
  · intro h
    rw [migrate_schema_noop db n s h]
  · intro h
    refine ⟨migrate_schema_final_version db n s h, ?_⟩
    intro v hv
    rw [hv] at h
    simp only [exec_from] at h
    omega

/-- Witness for C9: from stored version 0 and three script batches, the stored
version advances to 2, strictly above the old version 0. -/
theorem migrate_schema_version_monotone_witness :
    schema_version
        (migrate_schema ⟨[("wallet", 0)], []⟩ "wallet"
          [["a"], ["b"], ["c"]]).registry "wallet" = some 2 ∧ 0 < 2 :=
  have h := (migrate_schema_version_monotone ⟨[("wallet", 0)], []⟩ "wallet"
    [["a"], ["b"], ["c"]]).2 (by decide)
  ⟨h.1, h.2 0 (by decide)⟩

/-- The `Merge` trait bound required of `PersistParams::ChangeSet`
(`type ChangeSet: Default + Merge`): a merge operation and an emptiness test.
The trait itself lives outside `sqlite.rs`; modelled from the spec: "Required
capabilities: `is_empty() -> bool`, `default() -> Self`, and `merge`". -/
class Merge (C : Type) where
  merge : C → C → C
  is_empty : C → Bool

/-- Modelled from the spec: the `Merge` impl for tuple changesets is not in
`sqlite.rs`; per the spec, "emptiness is conjunctive (all components empty ⇒
composite empty), merge is component-wise". -/
instance instMergeProd {A B : Type} [Merge A] [Merge B] : Merge (A × B) where
  merge x y := (Merge.merge x.1 y.1, Merge.merge x.2 y.2)
  is_empty x := Merge.is_empty x.1 && Merge.is_empty x.2

/-- The `PersistParams` trait (source lines 20-36), over an abstract database
state `Db` standing for everything reachable through the open transaction:
`initialize_tables` mutates the database through the transaction,
`load_changeset` reads it, `write_changeset` mutates it with a changeset. -/
structure PersistParams (Db C : Type) where
  initialize_tables : Db → Db
  load_changeset : Db → Option C
  write_changeset : Db → C → Db

/-- The `PersistParams` impl for `(A, B)` (source lines 39-69):
`initialize_tables` runs A's then B's; `load_changeset` loads both sides,
defaulting a missing side, and yields `None` exactly when the composed pair
`is_empty`; `write_changeset` writes A's side then B's side. -/
def pairParams {Db A B : Type} [Inhabited A] [Inhabited B] [Merge A] [Merge B]
    (pa : PersistParams Db A) (pb : PersistParams Db B) :
    PersistParams Db (A × B) where
  initialize_tables db := pb.initialize_tables (pa.initialize_tables db)
  load_changeset db :=
    let changeset :=
      ((pa.load_changeset db).getD default, (pb.load_changeset db).getD default)
    if Merge.is_empty changeset then none else some changeset
  write_changeset db c := pb.write_changeset (pa.write_changeset db c.1) c.2

/-- A database connection: the committed database state plus counters for the
transactions opened (`conn.transaction()`) and committed (`db_tx.commit()`)
through it, so "opens exactly one transaction" is observable. -/
structure Connection (Db : Type) where
  db : Db
  tx_count : Nat
  commit_count : Nat

/-- `Persister` (source lines 77-80): owns the connection and the parameters. -/
structure Persister (Db C : Type) where
  conn : Connection Db
  params : PersistParams Db C

/-- `Persister::persist` (source lines 84-91): if the changeset is not empty,
open a transaction, `write_changeset` inside it, and commit; otherwise do
nothing and return success. -/
def Persister.persist {Db C : Type} [Merge C] (p : Persister Db C)
    (changeset : C) : Persister Db C :=
  if !Merge.is_empty changeset then
    let db_tx := p.conn.db
    let db_tx := p.params.write_changeset db_tx changeset
    { p with
        conn :=
          { db := db_tx
            tx_count := p.conn.tx_count + 1
            commit_count := p.conn.commit_count + 1 } }
  else
    p

/-- `ConnectionExt::into_persister` (source lines 103-115): open one
transaction, `initialize_tables`, then `load_changeset`, commit, and return
the persister together with the loaded changeset. -/
def Connection.into_persister {Db C : Type} (conn : Connection Db)
    (params : PersistParams Db C) : Persister Db C × Option C :=
  let db_tx := conn.db
  let db_tx := params.initialize_tables db_tx
  let changeset := params.load_changeset db_tx
  let persister : Persister Db C :=
    { conn :=
        { db := db_tx
          tx_count := conn.tx_count + 1
          commit_count := conn.commit_count + 1 }
      params := params }
  (persister, changeset)

lemma is_empty_prod {A B : Type} [Merge A] [Merge B] (a : A) (b : B) :
    Merge.is_empty (a, b) = (Merge.is_empty a && Merge.is_empty b) := rfl

/-- C2: `persist` is a no-op returning success when the changeset is empty,
performing zero writes and opening no transaction; otherwise it opens exactly
one transaction, writes the changeset inside it via `write_changeset`, and
commits. -/
theorem persist_spec {Db C : Type} [Merge C] (p : Persister Db C) (c : C) :
    (Merge.is_empty c = true → p.persist c = p) ∧
    (Merge.is_empty c = false →
        (p.persist c).conn.db = p.params.write_changeset p.conn.db c ∧
        (p.persist c).conn.tx_count = p.conn.tx_count + 1 ∧
        (p.persist c).conn.commit_count = p.conn.commit_count + 1 ∧
        (p.persist c).params = p.params) := by
  constructor
  · intro h
    simp [Persister.persist, h]
  · intro h
    simp [Persister.persist, h]

/-- A concrete `PersistParams` instance used by witnesses: the database is a
list of stored facts, loading returns the whole list when nonempty, writing
appends. -/
def natListParams : PersistParams (List Nat) (List Nat) where
  initialize_tables db := db
  load_changeset db := if db.isEmpty then none else some db
  write_changeset db c := db ++ c

/-- A concrete `PersistParams` instance used by witnesses whose load phase
never finds anything. -/
def noneParams : PersistParams (List Nat) (List Nat) where
  initialize_tables db := db
  load_changeset _ := none
  write_changeset db _ := db

instance : Merge (List Nat) where
  merge := List.append
  is_empty := List.isEmpty

/-- Witness for C2: persisting the empty changeset leaves the persister
untouched. -/
theorem persist_spec_witness :
    Persister.persist
        (⟨⟨[7], 0, 0⟩, natListParams⟩ : Persister (List Nat) (List Nat)) [] =
      ⟨⟨[7], 0, 0⟩, natListParams⟩ :=
  (persist_spec ⟨⟨[7], 0, 0⟩, natListParams⟩ []).1 rfl

/-- C3: `into_persister` opens exactly one transaction, runs
`initialize_tables` then `load_changeset` in that order inside it, commits,
and returns the persister together with the loaded changeset — exactly what
`load_changeset` observed on the freshly initialized store, so `none` when the
store was empty. -/
theorem into_persister_spec {Db C : Type} (conn : Connection Db)
    (params : PersistParams Db C) :
    (conn.into_persister params).2 =
        params.load_changeset (params.initialize_tables conn.db) ∧
    (conn.into_persister params).1.conn.db =
        params.initialize_tables conn.db ∧
    (conn.into_persister params).1.conn.tx_count = conn.tx_count + 1 ∧
    (conn.into_persister params).1.conn.commit_count = conn.commit_count + 1 ∧
    (conn.into_persister params).1.params = params :=
  ⟨rfl, rfl, rfl, rfl, rfl⟩

/-- C4: for the pair combinator `(A, B)`, `load_changeset` loads both sides,
substituting the default (empty) changeset for a side that returns `None`, and
returns `None` exactly when the composed result is entirely empty (both sides
empty) — not when merely one individual side is empty; `initialize_tables`
runs A's initialization then B's. -/
theorem pair_params_spec {Db A B : Type} [Inhabited A] [Inhabited B]
    [Merge A] [Merge B] (pa : PersistParams Db A) (pb : PersistParams Db B)
    (db : Db) :
    ((pairParams pa pb).load_changeset db = none ↔
        Merge.is_empty ((pa.load_changeset db).getD default) = true ∧
        Merge.is_empty ((pb.load_changeset db).getD default) = true) ∧
    ((pairParams pa pb).load_changeset db ≠ none →
        (pairParams pa pb).load_changeset db =
          some ((pa.load_changeset db).getD default,
            (pb.load_changeset db).getD default)) ∧
    (pairParams pa pb).initialize_tables db =
      pb.initialize_tables (pa.initialize_tables db) := by
  have hload : (pairParams pa pb).load_changeset db =
      if Merge.is_empty ((pa.load_changeset db).getD default) &&
          Merge.is_empty ((pb.load_changeset db).getD default) then none
      else
        some ((pa.load_changeset db).getD default,
          (pb.load_changeset db).getD default) := rfl
  refine ⟨?_, ?_, rfl⟩
  · rw [hload]
    by_cases hb : (Merge.is_empty ((pa.load_changeset db).getD default) &&
        Merge.is_empty ((pb.load_changeset db).getD default)) = true
    · rw [if_pos hb]
      simpa using Bool.and_eq_true _ _ |>.mp hb
    · rw [if_neg hb]
      simp only [Bool.and_eq_true] at hb
      simp [hb]
  · rw [hload]
    intro h
    by_cases hb : (Merge.is_empty ((pa.load_changeset db).getD default) &&
        Merge.is_empty ((pb.load_changeset db).getD default)) = true
    · rw [if_pos hb] at h
      exact absurd rfl h
    · rw [if_neg hb]

/-- Witness for C4: with the left side loading `[5]` and the right side
loading nothing (defaulted to the empty changeset), the composed load is
`some`, not `none`. -/
theorem pair_params_spec_witness :
    (pairParams natListParams noneParams).load_changeset [5] =
      some ([5], []) :=
  (pair_params_spec natListParams noneParams [5]).2.1 (by decide)

/-- A native SQLite column value (`rusqlite::types::ValueRef`), restricted to
the variants the codecs touch: signed 64-bit integers, UTF-8 text, and blobs.
Bytes are `Nat`s below 256. -/
inductive SqlValue where
  | integer (i : Int)
  | text (s : String)
  | blob (b : List Nat)
  deriving Repr, DecidableEq

/-- Codec failure, following `FromSqlError` and the spec's `CodecError`:
`invalidType` is rusqlite's error for reading a column of the wrong native
type; `malformed` stands for `FromSqlError::Other` wrapping a parse failure
(`from_sql_error`, source line 326); `outOfRange` stands for the wrapped
integer-conversion failure. -/
inductive CodecError where
  | invalidType
  | malformed
  | outOfRange
  deriving Repr, DecidableEq

/-- UTF-8 bytes of a string, used by `ValueRef::as_bytes` on a text value. -/
def utf8Bytes (s : String) : List Nat :=
  s.data.flatMap (fun c =>
    let n := c.toNat
    if n < 0x80 then [n]
    else if n < 0x800 then [0xC0 + n / 64, 0x80 + n % 64]
    else if n < 0x10000 then
      [0xE0 + n / 4096, 0x80 + n / 64 % 64, 0x80 + n % 64]
    else
      [0xF0 + n / 262144, 0x80 + n / 4096 % 64, 0x80 + n / 64 % 64,
        0x80 + n % 64])

/-- `ValueRef::as_str`: succeeds on text only. -/
def SqlValue.as_str : SqlValue → Except CodecError String
  | .text s => .ok s
  | _ => .error .invalidType

/-- `ValueRef::as_bytes`: succeeds on blobs, and on text as its UTF-8
bytes. -/
def SqlValue.as_bytes : SqlValue → Except CodecError (List Nat)
  | .blob b => .ok b
  | .text s => .ok (utf8Bytes s)
  | _ => .error .invalidType

/-- `ValueRef::as_i64`: succeeds on integers only. -/
def SqlValue.as_i64 : SqlValue → Except CodecError Int
  | .integer i => .ok i
  | _ => .error .invalidType

/-- Value of one hexadecimal digit, either case (the hex alphabet accepted by
`bitcoin::Txid::from_str`). -/
def hexDigitVal (c : Char) : Option Nat :=
  if '0' ≤ c ∧ c ≤ '9' then some (c.toNat - 48)
  else if 'a' ≤ c ∧ c ≤ 'f' then some (c.toNat - 87)
  else if 'A' ≤ c ∧ c ≤ 'F' then some (c.toNat - 55)
  else none

/-- Lowercase hex digit of a value below 16 (canonical display used by
`Txid::to_string`). -/
def hexDigitChar (n : Nat) : Char :=
  if n < 10 then Char.ofNat (48 + n) else Char.ofNat (87 + n)

/-- Parse pairs of hex digits into bytes; `none` on a non-hex character or an
odd digit count. -/
def parseHexPairs : List Char → Option (List Nat)
  | [] => some []
  | c1 :: c2 :: rest =>
    match hexDigitVal c1, hexDigitVal c2, parseHexPairs rest with
    | some h, some l, some bytes => some ((16 * h + l) :: bytes)
    | _, _, _ => none
  | [_] => none

/-- Canonical lowercase hex string of a byte list. -/
def bytesToHex (l : List Nat) : String :=
  ⟨l.flatMap (fun b => [hexDigitChar (b / 16), hexDigitChar (b % 16)])⟩

/-- The 32-byte-hash text codec shared by `Sql<bitcoin::Txid>` and
`Sql<bitcoin::BlockHash>`.  The codec itself lives in the external `bitcoin`
crate; modelled from the spec: "stored as their canonical fixed-length hex
string representation; decode parses hex, fails with `CodecError::Malformed`
on invalid hex or wrong length".  Hashes display in reversed byte order, so
decoding reverses the parsed bytes back into internal order. -/
def hash32FromStr (s : String) : Except CodecError (List Nat) :=
  match parseHexPairs s.data with
  | some bytes =>
    if bytes.length = 32 then .ok bytes.reverse else .error .malformed
  | none => .error .malformed

/-- Canonical hex display of a 32-byte hash (reversed byte order). -/
def hash32ToStr (t : List Nat) : String :=
  bytesToHex t.reverse

/-- `FromSql for Sql<bitcoin::Txid>` (source lines 193-199): read the column
as text and parse it as a 32-byte hash, any failure mapped through
`from_sql_error`. -/
def txidFromSql (v : SqlValue) : Except CodecError (List Nat) :=
  match v.as_str with
  | .error e => .error e
  | .ok s => hash32FromStr s

/-- `ToSql for Sql<bitcoin::Txid>` (source lines 201-205): the canonical hex
string of the hash. -/
def txidToSql (t : List Nat) : SqlValue :=
  .text (hash32ToStr t)

/-- `FromSql for Sql<bitcoin::BlockHash>` (source lines 207-213): same
32-byte-hash text codec as `Txid`. -/
def blockHashFromSql (v : SqlValue) : Except CodecError (List Nat) :=
  match v.as_str with
  | .error e => .error e
  | .ok s => hash32FromStr s

/-- `ToSql for Sql<bitcoin::BlockHash>` (source lines 215-219). -/
def blockHashToSql (t : List Nat) : SqlValue :=
  .text (hash32ToStr t)

/-- `bitcoin::Network`.  External to the repo; modelled from the spec:
"Network identifier ... stored as their canonical string form; decode fails
with `CodecError::Malformed` on unparseable strings." -/
inductive Network where
  | bitcoin
  | testnet
  | signet
  | regtest
  deriving Repr, DecidableEq

/-- Canonical string form of a network identifier (`Network`'s `Display`). -/
def Network.toCanonicalString : Network → String
  | .bitcoin => "bitcoin"
  | .testnet => "testnet"
  | .signet => "signet"
  | .regtest => "regtest"

/-- `Network::from_str`: accepts exactly the canonical strings. -/
def networkFromStr (s : String) : Except CodecError Network :=
  if s = "bitcoin" then .ok .bitcoin
  else if s = "testnet" then .ok .testnet
  else if s = "signet" then .ok .signet
  else if s = "regtest" then .ok .regtest
  else .error .malformed

/-- `FromSql for Sql<bitcoin::Network>` (source lines 312-318). -/
def networkFromSql (v : SqlValue) : Except CodecError Network :=
  match v.as_str with
  | .error e => .error e
  | .ok s => networkFromStr s

/-- `ToSql for Sql<bitcoin::Network>` (source lines 320-324). -/
def networkToSql (n : Network) : SqlValue :=
  .text n.toCanonicalString

/-- `FromSql for Sql<bitcoin::ScriptBuf>` (source lines 253-259): wrap the
raw bytes of the column, with no validation and no transformation. -/
def scriptFromSql (v : SqlValue) : Except CodecError (List Nat) :=
  match v.as_bytes with
  | .error e => .error e
  | .ok b => .ok b

/-- `ToSql for Sql<bitcoin::ScriptBuf>` (source lines 261-265): the raw
bytes. -/
def scriptToSql (b : List Nat) : SqlValue :=
  .blob b

/-- Maximum value of a signed 64-bit column integer (`i64::MAX`). -/
def i64Max : Int := 2 ^ 63 - 1

/-- Minimum value of a signed 64-bit column integer (`i64::MIN`). -/
def i64Min : Int := -(2 ^ 63)

/-- Maximum satoshi count representable by `bitcoin::Amount`, a `u64`. -/
def amountMax : Nat := 2 ^ 64 - 1

/-- `FromSql for Sql<bitcoin::Amount>` (source lines 267-271): read the
column as `i64` and convert to the unsigned satoshi count
(`u64::try_from`), failing (the wrapped `TryFromIntError`, the spec's
`CodecError::OutOfRange`) exactly when the integer is negative. -/
def amountFromSql (v : SqlValue) : Except CodecError Nat :=
  match v.as_i64 with
  | .error e => .error e
  | .ok i => if i < 0 then .error .outOfRange else .ok i.toNat

/-- `ToSql for Sql<bitcoin::Amount>` (source lines 273-278): convert the
`u64` satoshi count to `i64` (`i64::try_from`), failing
(`ToSqlConversionFailure` wrapping the `TryFromIntError`) when the count
exceeds `i64::MAX`. -/
def amountToSql (sat : Nat) : Except CodecError SqlValue :=
  if (sat : Int) ≤ i64Max then .ok (.integer (sat : Int))
  else .error .outOfRange

lemma hexDigitVal_hexDigitChar : ∀ n < 16, hexDigitVal (hexDigitChar n) = some n := by
  decide

lemma parseHexPairs_bytesToHex (l : List Nat) (h : ∀ b ∈ l, b < 256) :
    parseHexPairs (bytesToHex l).data = some l := by
  induction l with
  | nil => rfl
  | cons b t ih =>
    have hb : b < 256 := h b (by simp)
    have hdata : (bytesToHex (b :: t)).data =
        hexDigitChar (b / 16) :: hexDigitChar (b % 16) :: (bytesToHex t).data := by
      simp [bytesToHex]
    rw [hdata, parseHexPairs,
      hexDigitVal_hexDigitChar (b / 16) (by omega),
      hexDigitVal_hexDigitChar (b % 16) (by omega),
      ih (fun x hx => h x (by simp [hx]))]
    have hb' : 16 * (b / 16) + b % 16 = b := by omega
    show some ((16 * (b / 16) + b % 16) :: t) = some (b :: t)
    rw [hb']

lemma hash32_roundtrip (t : List Nat) (h32 : t.length = 32)
    (hb : ∀ b ∈ t, b < 256) :
    hash32FromStr (hash32ToStr t) = .ok t := by
  rw [hash32ToStr, hash32FromStr,
    parseHexPairs_bytesToHex t.reverse (fun b hb' => hb b (List.mem_reverse.mp hb'))]
  simp [h32, List.reverse_reverse]

/-- C6: for each supported domain type, decoding the encoded column value
yields the original value (transaction ids, block hashes, scripts, network
identifiers, and representable amounts), and decoding a corrupted string for a
hash or network column yields a `Malformed` error, never a silently
substituted default: every decode failure on a text column is `.malformed`,
and a success arises only from a well-formed encoding. -/
theorem codec_roundtrip_spec :
    (∀ t : List Nat, t.length = 32 → (∀ b ∈ t, b < 256) →
        txidFromSql (txidToSql t) = .ok t) ∧
    (∀ t : List Nat, t.length = 32 → (∀ b ∈ t, b < 256) →
        blockHashFromSql (blockHashToSql t) = .ok t) ∧
    (∀ b : List Nat, scriptFromSql (scriptToSql b) = .ok b) ∧
    (∀ n : Network, networkFromSql (networkToSql n) = .ok n) ∧
    (∀ sat : Nat, (sat : Int) ≤ i64Max →
        ∃ v, amountToSql sat = .ok v ∧ amountFromSql v = .ok sat) ∧
    (∀ s : String, txidFromSql (.text s) = .error .malformed ∨
        ∃ bytes, parseHexPairs s.data = some bytes ∧ bytes.length = 32 ∧
          txidFromSql (.text s) = .ok bytes.reverse) ∧
    (∀ s : String, networkFromSql (.text s) = .error .malformed ∨
        ∃ n, networkFromSql (.text s) = .ok n ∧ s = n.toCanonicalString) := by
  refine ⟨?_, ?_, ?_, ?_, ?_, ?_, ?_⟩
  · intro t h32 hb
    show hash32FromStr (hash32ToStr t) = .ok t
    exact hash32_roundtrip t h32 hb
  · intro t h32 hb
    show hash32FromStr (hash32ToStr t) = .ok t
    exact hash32_roundtrip t h32 hb
  · intro b
    rfl
  · intro n
    cases n <;> rfl
  · intro sat hle
    refine ⟨.integer (sat : Int), ?_, ?_⟩
    · rw [amountToSql, if_pos hle]
    · have hshape : amountFromSql (.integer (sat : Int)) =
          if (sat : Int) < 0 then .error .outOfRange
          else .ok (sat : Int).toNat := rfl
      rw [hshape, if_neg (by omega)]
      simp
  · intro s
    have hshape : txidFromSql (.text s) = hash32FromStr s := rfl
    rw [hshape, hash32FromStr]
    cases hp : parseHexPairs s.data with
    | none => exact Or.inl rfl
    | some bytes =>
      by_cases h32 : bytes.length = 32
      · exact Or.inr ⟨bytes, rfl, h32, by simp [h32]⟩
      · exact Or.inl (by simp [h32])
  · intro s
    show networkFromStr s = _ ∨ ∃ n, networkFromStr s = _ ∧ _
    rw [networkFromStr]
    by_cases h1 : s = "bitcoin"
    · exact Or.inr ⟨.bitcoin, by rw [if_pos h1], h1⟩
    · rw [if_neg h1]
      by_cases h2 : s = "testnet"
      · exact Or.inr ⟨.testnet, by rw [if_pos h2], h2⟩
      · rw [if_neg h2]
        by_cases h3 : s = "signet"
        · exact Or.inr ⟨.signet, by rw [if_pos h3], h3⟩
        · rw [if_neg h3]
          by_cases h4 : s = "regtest"
          · exact Or.inr ⟨.regtest, by rw [if_pos h4], h4⟩
          · rw [if_neg h4]
            exact Or.inl rfl

/-- Witness for C6: an all-zero 32-byte transaction id round-trips through
the hex column codec. -/
theorem codec_roundtrip_spec_witness :
    txidFromSql (txidToSql (List.replicate 32 0)) =
      .ok (List.replicate 32 0) :=
  codec_roundtrip_spec.1 (List.replicate 32 0) (by decide) (by decide)

/-- Counterexample to C7 as stated: encoding the amount of `2 ^ 63` satoshis
(a value of the domain type, which is a `u64` count) is not infallible — it
fails with the `i64` conversion error. -/
theorem amount_encode_fallible :
    amountToSql (2 ^ 63) = .error .outOfRange := by
  rw [amountToSql, if_neg]
  rw [i64Max]
  push_cast
  norm_num

/-- C7 amended: encoders for hash-like, script, and network types are total
functions into native column values (no error case in their types), but the
amount encoder is fallible: it succeeds exactly on satoshi counts of at most
`i64::MAX` and fails with a conversion error above that. -/
theorem encode_totality_spec :
    (∀ t : List Nat, txidToSql t = .text (hash32ToStr t)) ∧
    (∀ t : List Nat, blockHashToSql t = .text (hash32ToStr t)) ∧
    (∀ b : List Nat, scriptToSql b = .blob b) ∧
    (∀ n : Network, networkToSql n = .text n.toCanonicalString) ∧
    (∀ sat : Nat,
        ((sat : Int) ≤ i64Max → amountToSql sat = .ok (.integer (sat : Int))) ∧
        (i64Max < (sat : Int) → amountToSql sat = .error .outOfRange)) := by
  refine ⟨fun _ => rfl, fun _ => rfl, fun _ => rfl, fun _ => rfl, fun sat => ⟨?_, ?_⟩⟩
  · intro hle
    rw [amountToSql, if_pos hle]
  · intro hgt
    rw [amountToSql, if_neg (by omega)]

/-- Witness for C7 (amended) at a concrete representable amount. -/
theorem encode_totality_spec_witness :
    amountToSql 21000000 = .ok (.integer 21000000) :=
  (encode_totality_spec.2.2.2.2 21000000).1 (by decide)

/-- C8: decoding a monetary amount from a stored signed 64-bit integer fails
with `OutOfRange` exactly when the stored integer is negative or exceeds the
amount type's maximum representable value (`u64::MAX`, which no `i64` can
exceed, so in effect exactly when negative), and succeeds with the
corresponding amount otherwise. -/
theorem amount_decode_spec (i : Int) (h : i64Min ≤ i ∧ i ≤ i64Max) :
    (amountFromSql (.integer i) = .error .outOfRange ↔
      (i < 0 ∨ (amountMax : Int) < i)) ∧
    (0 ≤ i → amountFromSql (.integer i) = .ok i.toNat) := by
  have hshape : amountFromSql (.integer i) =
      if i < 0 then .error .outOfRange else .ok i.toNat := rfl
  constructor
  · rw [hshape]
    constructor
    · intro he
      by_cases hi : i < 0
      · exact Or.inl hi
      · rw [if_neg hi] at he
        exact absurd he (by simp)
    · intro hor
      rcases hor with hneg | hbig
      · rw [if_pos hneg]
      · exfalso
        have h2 := h.2
        rw [i64Max] at h2
        rw [amountMax] at hbig
        omega
  · intro h0
    rw [hshape, if_neg (by omega)]

/-- Witness for C8: the stored integer `-1` decodes to `OutOfRange`, and `21`
decodes to the amount 21. -/
theorem amount_decode_spec_witness :
    amountFromSql (.integer (-1)) = .error .outOfRange ∧
    amountFromSql (.integer 21) = .ok 21 :=
  ⟨(amount_decode_spec (-1) (by decide)).1.mpr (Or.inl (by decide)),
    (amount_decode_spec 21 (by decide)).2 (by decide)⟩

/-- C10: script decoding is total on blob inputs: every byte sequence stored
in a blob column decodes successfully to exactly those bytes; no blob content
yields a `Malformed` error. -/
theorem script_decode_total_on_blobs (b : List Nat) :
    scriptFromSql (.blob b) = .ok b := rfl

end BdkSqlite
